import Mathlib

/-!
Verification of the analysis front-end in `src/extract.rs` of the
`generic-tests` crate: extraction of test-marked functions from a module,
arity-uniformity checking, and extraction of the `instantiate_tests`
directive attribute.  The Rust syntax types (`syn::Attribute`,
`syn::ItemFn`, `syn::ItemMod`, ...) are shallowly embedded here, keeping
exactly the fields the analysed code reads or writes.
-/

namespace GenericTests

/-- Attribute style: `AttrStyle::Outer` or `AttrStyle::Inner` in `syn`. -/
inductive AttrStyle
  | outer
  | inner
deriving DecidableEq, Repr

/-- One generic argument of an angle-bracketed list (`syn::GenericArgument`),
abstracted to its token text; the analysed code treats arguments opaquely. -/
inductive GenericArgument
  | lifetimeArg (tok : String)
  | typeArg (tok : String)
  | constArg (tok : String)
deriving DecidableEq, Repr

/-- A `syn::Error`: one or more located messages.  Spans are not modelled;
each message is kept as its text.  `Error::new_spanned` makes a single
message; combining errors concatenates message lists in order. -/
structure Error where
  msgs : List String
deriving DecidableEq, Repr

/-- `syn::Error::new_spanned(tokens, message)` — the span is dropped. -/
def Error.new_spanned (msg : String) : Error :=
  ⟨[msg]⟩

/-- `syn::Error::combine`: the second error's messages follow the first's. -/
def Error.combine (a b : Error) : Error :=
  ⟨a.msgs ++ b.msgs⟩

/-- A `syn::Attribute`: a path (abstracted to its identifier text), a style,
and the result of `parse_args::<AngleBracketedGenericArguments>()` on its
payload — `ok` with the argument list if the payload is a well-formed
angle-bracketed comma-separated sequence, `error` otherwise. -/
structure Attribute where
  path : String
  style : AttrStyle
  parse_args : Except Error (List GenericArgument)

instance : DecidableEq (Except Error (List GenericArgument)) := fun a b =>
  match a, b with
  | .ok x, .ok y =>
    if h : x = y then .isTrue (by rw [h]) else .isFalse (by simp [h])
  | .ok _, .error _ => .isFalse (by simp)
  | .error _, .ok _ => .isFalse (by simp)
  | .error x, .error y =>
    if h : x = y then .isTrue (by rw [h]) else .isFalse (by simp [h])

instance : DecidableEq Attribute := fun a b =>
  match a, b with
  | ⟨p, s, r⟩, ⟨p', s', r'⟩ =>
    if h : p = p' ∧ s = s' ∧ r = r' then
      .isTrue (by obtain ⟨h1, h2, h3⟩ := h; rw [h1, h2, h3])
    else
      .isFalse (by intro hc; cases hc; simp at h)

/-- A generic parameter (`syn::GenericParam`): type, const, or lifetime. -/
inductive GenericParam
  | typeParam (name : String)
  | constParam (name : String)
  | lifetimeParam (name : String)
deriving DecidableEq, Repr

/-- A function's return type (`syn::ReturnType`), abstracted to its text. -/
inductive ReturnType
  | default
  | ty (t : String)
deriving DecidableEq, Repr

/-- The parts of `syn::Signature` that `extract.rs` reads:
qualifiers, name, generic parameter list, return type.
The parameter list is opaque to this core (delegated to the
signature builder) and is not modelled. -/
structure FnSig where
  asyncness : Bool
  unsafety : Bool
  ident : String
  generics : List GenericParam
  output : ReturnType
deriving DecidableEq

/-- A function declaration (`syn::ItemFn`): attributes and signature.
The body is never inspected by the analysed code. -/
structure ItemFn where
  attrs : List Attribute
  sig : FnSig
deriving DecidableEq

/-- A module-level declaration (`syn::Item`); only the function variant is
analysed, every other variant passes through untouched and is abstracted
to an opaque tag. -/
inductive Item
  | fn (f : ItemFn)
  | other (tag : String)
deriving DecidableEq

/-- A module (`syn::ItemMod`): its attributes and its inline content
(`None` when the body resides in another file). -/
structure ItemMod where
  attrs : List Attribute
  content : Option (List Item)
deriving DecidableEq

/-- Modelled from the spec: the Attribute Classifier (`MacroOpts` from
`crate::options`, not under `src/`) — two predicates over an attribute:
"is this a test marker" and "is this a copy-forward attribute". -/
structure MacroOpts where
  is_test_attr : Attribute → Bool
  is_copied_attr : Attribute → Bool

/-- Modelled from the spec: the Error Aggregator (`ErrorRecord` from
`crate::error`, not under `src/`).  Starts empty; `add_error` appends one
failure; `check` returns success if empty, otherwise a single failure that
is the ordered merge of all added failures. -/
abbrev ErrorRecord := List Error

/-- Modelled from the spec: `ErrorRecord::add_error` appends one failure. -/
def ErrorRecord.add_error (r : ErrorRecord) (e : Error) : ErrorRecord :=
  r ++ [e]

/-- Modelled from the spec: `ErrorRecord::check` consumes the aggregator:
success if empty, otherwise the ordered merge of all added failures. -/
def ErrorRecord.check : ErrorRecord → Except Error Unit
  | [] => .ok ()
  | e :: es => .error (es.foldl Error.combine e)

/-- A validated test record (`TestFn` in `extract.rs`).  The built signature
is opaque to this core, so its type is a parameter `Sig`. -/
structure TestFn (Sig : Type) where
  test_attrs : List Attribute
  asyncness : Bool
  unsafety : Bool
  ident : String
  output : ReturnType
  sig : Sig

/-- The test collection (`Tests` in `extract.rs`). -/
structure Tests (Sig : Type) where
  test_fns : List (TestFn Sig)

/-- The `while pos < item.attrs.len()` loop of `extract_test_attrs`:
if the attribute at `pos` is a test marker it is removed (and pushed onto
the collected marker list) without advancing `pos`; otherwise `pos`
advances.  Returns the remaining attributes and the removed markers in
removal order. -/
def extractAttrsLoop (opts : MacroOpts) (attrs : List Attribute) (pos : Nat) :
    List Attribute × List Attribute :=
  if h : pos < attrs.length then
    let attr := attrs.get ⟨pos, h⟩
    if opts.is_test_attr attr then
      let r := extractAttrsLoop opts (attrs.eraseIdx pos) pos
      (r.1, attr :: r.2)
    else
      extractAttrsLoop opts attrs (pos + 1)
  else
    (attrs, [])
termination_by attrs.length - pos
decreasing_by
  · have := List.length_eraseIdx_of_lt h
    omega
  · omega

/-- `extract_test_attrs` from `extract.rs`: strip every test-marker
attribute from the function; if none was found the function is not a test
(`none`); otherwise append a clone of every copy-forward attribute among
the remaining ones and return the combined list.  The returned `ItemFn` is
the post-mutation state of the Rust `&mut ItemFn` argument. -/
def extract_test_attrs (opts : MacroOpts) (item : ItemFn) :
    ItemFn × Option (List Attribute) :=
  let r := extractAttrsLoop opts item.attrs 0
  let item' : ItemFn := { item with attrs := r.1 }
  if r.2.isEmpty then
    (item', none)
  else
    (item', some (r.2 ++ r.1.filter opts.is_copied_attr))

/-- `generic_arity` from `extract.rs`: the number of type and const generic
parameters; lifetime parameters do not count.  Takes the parameter list of
the Rust `Generics` value. -/
def generic_arity (generics : List GenericParam) : Nat :=
  (generics.filter fun param =>
    match param with
    | .typeParam _ | .constParam _ => true
    | .lifetimeParam _ => false).length

/-- The error recorded by `extract_recording_errors` on a generic-arity
mismatch, naming the offending function, its arity, and the baseline. -/
def arityMismatchError (ident : String) (fn_generic_arity n : Nat) : Error :=
  Error.new_spanned ("test function `" ++ ident ++ "` has " ++
    toString fn_generic_arity ++
    " generic parameters while others in the same module have " ++ toString n)

/-- Building one `TestFn` record from the (attribute-stripped) function, as
done at the push site in `extract_recording_errors`. -/
def mkTestFn {Sig : Type} (test_attrs : List Attribute) (item : ItemFn)
    (sig : Sig) : TestFn Sig :=
  { test_attrs := test_attrs
    asyncness := item.sig.asyncness
    unsafety := item.sig.unsafety
    ident := item.sig.ident
    output := item.sig.output
    sig := sig }

/-- The `for item in items.iter_mut()` loop of
`Tests::extract_recording_errors`, with the loop state
(`mod_wide_generic_arity`) explicit.  The signature builder
`TestFnSignature::try_build` is an external collaborator and is passed in
as `try_build`.  Returns the post-mutation item list, the accepted test
records in acceptance order, and the recorded errors in recording order. -/
def extractItemsLoop {Sig : Type} (opts : MacroOpts)
    (try_build : ItemFn → Except Error Sig) :
    List Item → Option Nat → List Item × List (TestFn Sig) × List Error
  | [], _ => ([], [], [])
  | .other tag :: rest, mod_wide_generic_arity =>
    let r := extractItemsLoop opts try_build rest mod_wide_generic_arity
    (.other tag :: r.1, r.2.1, r.2.2)
  | .fn item :: rest, mod_wide_generic_arity =>
    match extract_test_attrs opts item with
    | (item', none) =>
      let r := extractItemsLoop opts try_build rest mod_wide_generic_arity
      (.fn item' :: r.1, r.2.1, r.2.2)
    | (item', some test_attrs) =>
      match try_build item' with
      | .error e =>
        let r := extractItemsLoop opts try_build rest mod_wide_generic_arity
        (.fn item' :: r.1, r.2.1, e :: r.2.2)
      | .ok sig =>
        let fn_generic_arity := generic_arity item'.sig.generics
        match mod_wide_generic_arity with
        | none =>
          let r := extractItemsLoop opts try_build rest (some fn_generic_arity)
          (.fn item' :: r.1, mkTestFn test_attrs item' sig :: r.2.1, r.2.2)
        | some n =>
          if fn_generic_arity ≠ n then
            let r := extractItemsLoop opts try_build rest (some n)
            (.fn item' :: r.1, r.2.1,
              arityMismatchError item'.sig.ident fn_generic_arity n :: r.2.2)
          else
            let r := extractItemsLoop opts try_build rest (some n)
            (.fn item' :: r.1, mkTestFn test_attrs item' sig :: r.2.1, r.2.2)

/-- `Tests::extract_recording_errors`: one pass over the declaration list
starting with no module-wide arity baseline.  Returns the post-mutation
item list, the test collection, and the error record. -/
def Tests.extract_recording_errors {Sig : Type} (opts : MacroOpts)
    (try_build : ItemFn → Except Error Sig) (items : List Item) :
    List Item × Tests Sig × ErrorRecord :=
  let r := extractItemsLoop opts try_build items none
  (r.1, ⟨r.2.1⟩, r.2.2)

/-- `Tests::try_extract`: reject a non-inline module up front, otherwise
run the recording pass and check the aggregated errors.  The second
component is the post-call state of the Rust `&mut ItemMod` argument
(returned unchanged on the non-inline early exit). -/
def Tests.try_extract {Sig : Type} (opts : MacroOpts)
    (try_build : ItemFn → Except Error Sig) (ast : ItemMod) :
    Except Error (Tests Sig × List Item) × ItemMod :=
  match ast.content with
  | none => (.error (Error.new_spanned "only inline modules are supported"), ast)
  | some items =>
    let r := Tests.extract_recording_errors opts try_build items
    let ast' : ItemMod := { ast with content := some r.1 }
    match ErrorRecord.check r.2.2 with
    | .error e => (.error e, ast')
    | .ok _ => (.ok (r.2.1, r.1), ast')

/-- `InstArguments`: the parsed payload of the `instantiate_tests`
directive attribute. -/
structure InstArguments where
  args : List GenericArgument
deriving DecidableEq

/-- The `for (pos, attr) in item.attrs.iter().enumerate()` loop of
`InstArguments::try_extract`: the first attribute named
`instantiate_tests` is examined — inner style is an immediate error, a
payload parse failure propagates, and on success the attribute is removed
at its position and the arguments are returned. -/
def instExtractLoop (attrs : List Attribute) (pos : Nat) :
    Except Error (Option (List GenericArgument) × List Attribute) :=
  if h : pos < attrs.length then
    let attr := attrs.get ⟨pos, h⟩
    if attr.path = "instantiate_tests" then
      match attr.style with
      | .inner => .error (Error.new_spanned "cannot be an inner attribute")
      | .outer =>
        match attr.parse_args with
        | .error e => .error e
        | .ok args => .ok (some args, attrs.eraseIdx pos)
    else
      instExtractLoop attrs (pos + 1)
  else
    .ok (none, attrs)
termination_by attrs.length - pos

/-- `InstArguments::try_extract`: scan the module's attributes for the
directive; the second component is the post-call state of the Rust
`&mut ItemMod` argument (unchanged on error and on "no directive"). -/
def InstArguments.try_extract (item : ItemMod) :
    Except Error (Option InstArguments) × ItemMod :=
  match instExtractLoop item.attrs 0 with
  | .error e => (.error e, item)
  | .ok (none, _) => (.ok none, item)
  | .ok (some args, attrs') => (.ok (some ⟨args⟩), { item with attrs := attrs' })

/-- The per-item effect of the extraction pass on the declaration list:
a function declaration keeps everything but its attribute list, which loses
exactly the test markers; any other declaration is untouched.  Used to
state the frame property of `Tests.extract_recording_errors`. -/
def stripTestMarkers (opts : MacroOpts) : Item → Item
  | .fn f => .fn (extract_test_attrs opts f).1
  | .other tag => .other tag

/-- Instrumented signature builder: record, next to the built signature,
the generic arity of the function it was built from.  This makes the
source arity of each accepted test record observable in the record itself,
so that arity uniformity of the collection can be stated. -/
def withArity {Sig : Type} (try_build : ItemFn → Except Error Sig) :
    ItemFn → Except Error (Sig × Nat) :=
  fun item =>
    match try_build item with
    | .error e => .error e
    | .ok sig => .ok (sig, generic_arity item.sig.generics)

/-! ### Concrete inputs used by the witnesses -/

/-- A test-marker attribute. -/
def attrTest : Attribute := ⟨"test", .outer, .ok []⟩

/-- A copy-forward attribute. -/
def attrCopy : Attribute := ⟨"copy", .outer, .ok []⟩

/-- An attribute that is neither a marker nor copied. -/
def attrPlain : Attribute := ⟨"plain", .outer, .ok []⟩

/-- An outer `instantiate_tests` directive with payload `<i32, u8>`. -/
def attrDir : Attribute :=
  ⟨"instantiate_tests", .outer, .ok [.typeArg "i32", .typeArg "u8"]⟩

/-- An inner-style `instantiate_tests` directive. -/
def attrDirInner : Attribute :=
  ⟨"instantiate_tests", .inner, .ok [.typeArg "i32"]⟩

/-- A classifier: `test` marks a test, `copy` is copied forward. -/
def opts0 : MacroOpts :=
  ⟨fun a => a.path == "test", fun a => a.path == "copy"⟩

/-- A signature builder that fails exactly on functions named `bad`. -/
def tb0 : ItemFn → Except Error Unit :=
  fun item =>
    if item.sig.ident == "bad" then .error (Error.new_spanned "bad signature")
    else .ok ()

/-- `fn f<T>()` carrying two markers, one copied and one plain attribute. -/
def fn0 : ItemFn :=
  ⟨[attrTest, attrCopy, attrPlain, attrTest],
   ⟨false, false, "f", [.typeParam "T"], .default⟩⟩

/-- `fn g<T, U>()` carrying one marker. -/
def fn1 : ItemFn :=
  ⟨[attrTest], ⟨false, false, "g", [.typeParam "T", .typeParam "U"], .default⟩⟩

/-- A function with no marker attribute. -/
def fnPlain : ItemFn :=
  ⟨[attrCopy, attrPlain], ⟨false, false, "h", [.typeParam "T"], .default⟩⟩

/-- A marked function named `bad`, rejected by `tb0`. -/
def fnBad : ItemFn :=
  ⟨[attrTest, attrPlain], ⟨false, false, "bad", [.typeParam "T"], .default⟩⟩

/-- A signature builder that always succeeds. -/
def tbOk : ItemFn → Except Error Unit := fun _ => .ok ()

/-- `fn1` after marker removal. -/
def fn1Stripped : ItemFn :=
  ⟨[], ⟨false, false, "g", [.typeParam "T", .typeParam "U"], .default⟩⟩

/-- `fnBad` after marker removal. -/
def fnBadStripped : ItemFn :=
  ⟨[attrPlain], ⟨false, false, "bad", [.typeParam "T"], .default⟩⟩

/-- `fn0` after marker removal. -/
def fn0Stripped : ItemFn :=
  ⟨[attrCopy, attrPlain], ⟨false, false, "f", [.typeParam "T"], .default⟩⟩

/-- The expected test record attribute list for `fn0`. -/
def rec0 : List Attribute := [attrTest, attrTest, attrCopy]

/-- A module with a non-inline body. -/
def modNoInline : ItemMod := ⟨[], none⟩

/-- An inline module whose single function is rejected by `tb0`. -/
def modBad : ItemMod := ⟨[], some [.fn fnBad]⟩

/-- A module with no directive attribute. -/
def modNoDir : ItemMod := ⟨[attrPlain], some []⟩

/-- A module with a plain attribute, then two directive attributes. -/
def modDir : ItemMod := ⟨[attrPlain, attrDir, attrDir], some []⟩

/-- A module whose only directive attribute sits after a plain one. -/
def modDirOnce : ItemMod := ⟨[attrPlain, attrDir], some []⟩

/-- A module carrying the directive as an inner attribute. -/
def modDirInner : ItemMod := ⟨[attrDirInner], some []⟩

/-- `modDirOnce` after its directive attribute was removed. -/
def modDirOnceStripped : ItemMod := ⟨[attrPlain], some []⟩

/-! ### Characterisation of the attribute-stripping loop -/

theorem extractAttrsLoop_eq (opts : MacroOpts) (attrs : List Attribute)
    (pos : Nat) :
    extractAttrsLoop opts attrs pos =
      (attrs.take pos ++ (attrs.drop pos).filter (fun a => !opts.is_test_attr a),
       (attrs.drop pos).filter (fun a => opts.is_test_attr a)) := by
  induction attrs, pos using extractAttrsLoop.induct opts with
  | case1 attrs pos h attr htest ih =>
    rw [extractAttrsLoop]
    simp only [h, dite_true]
    rw [if_pos htest, ih]
    have hdrop : attrs.drop pos = attr :: attrs.drop (pos + 1) := by
      rw [List.drop_eq_getElem_cons h]
      rfl
    have herase : attrs.eraseIdx pos = attrs.take pos ++ attrs.drop (pos + 1) :=
      List.eraseIdx_eq_take_drop_succ attrs pos
    have hlen : (attrs.take pos).length = pos := by
      simp [Nat.le_of_lt h]
    simp only [Prod.mk.injEq]
    constructor
    · rw [herase, List.take_append_eq_append_take, List.take_take,
        Nat.min_self, hlen, Nat.sub_self, List.take_zero, List.append_nil,
        List.drop_append_eq_append_drop, hlen, Nat.sub_self,
        List.drop_take, Nat.sub_self, List.take_zero, List.nil_append,
        List.drop_zero, hdrop, List.filter_cons, htest]
      simp
    · rw [herase, List.drop_append_eq_append_drop, hlen, Nat.sub_self,
        List.drop_take, Nat.sub_self, List.take_zero, List.nil_append,
        List.drop_zero, hdrop, List.filter_cons, htest]
      simp
      all_goals rfl
  | case2 attrs pos h attr htest ih =>
    rw [extractAttrsLoop]
    simp only [h, dite_true]
    rw [if_neg htest, ih]
    have hdrop : attrs.drop pos = attr :: attrs.drop (pos + 1) := by
      rw [List.drop_eq_getElem_cons h]
      rfl
    have htake : attrs.take (pos + 1) = attrs.take pos ++ [attr] := by
      rw [List.take_succ, List.getElem?_eq_getElem h]
      rfl
    rw [hdrop, List.filter_cons, List.filter_cons]
    simp only [htest, Bool.not_false, Bool.false_eq_true, if_false, if_true,
      cond_false, cond_true]
    rw [htake, List.append_assoc]
    rfl
  | case3 attrs pos h =>
    rw [extractAttrsLoop]
    simp only [h, dite_false]
    have hge : attrs.length ≤ pos := Nat.le_of_not_lt h
    rw [List.drop_eq_nil_of_le hge, List.take_of_length_le hge]
    simp

/-- `extract_test_attrs` in closed form: the function keeps exactly its
non-marker attributes in order; when at least one marker was present, the
returned list is the markers in order followed by the copy-forward
attributes among the remaining ones, in order. -/
theorem extract_test_attrs_eq (opts : MacroOpts) (item : ItemFn) :
    extract_test_attrs opts item =
      ({ item with attrs := item.attrs.filter fun a => !opts.is_test_attr a },
       if (item.attrs.filter fun a => opts.is_test_attr a) = [] then none
       else some ((item.attrs.filter fun a => opts.is_test_attr a) ++
         (item.attrs.filter fun a => !opts.is_test_attr a).filter
           opts.is_copied_attr)) := by
  simp only [extract_test_attrs, extractAttrsLoop_eq, List.take_zero,
    List.drop_zero, List.nil_append, List.isEmpty_iff]
  split <;> rfl

/-- C1: for every function declaration accepted as a test, the resulting
record's attribute list equals the removed test-marker attributes in their
original relative order followed by clones of the copy-forward attributes
in their original relative order, and after extraction the function's
attribute list consists exactly of its non-marker attributes in their
original relative order. -/
theorem extract_test_attrs_record_correct (opts : MacroOpts)
    (item item' : ItemFn) (record : List Attribute)
    (h : extract_test_attrs opts item = (item', some record)) :
    record = (item.attrs.filter fun a => opts.is_test_attr a) ++
      ((item.attrs.filter fun a => !opts.is_test_attr a).filter fun a =>
        opts.is_copied_attr a) ∧
    item'.attrs = item.attrs.filter fun a => !opts.is_test_attr a := by
  rw [extract_test_attrs_eq] at h
  by_cases hc : (item.attrs.filter fun a => opts.is_test_attr a) = []
  · rw [if_pos hc] at h
    simp at h
  · rw [if_neg hc] at h
    simp only [Prod.mk.injEq, Option.some.injEq] at h
    obtain ⟨h1, h2⟩ := h
    exact ⟨h2.symm, by rw [← h1]⟩

/-- Witness for C1 at `fn0`. -/
theorem extract_test_attrs_record_correct_witness :
    extract_test_attrs opts0 fn0 = (fn0Stripped, some rec0) ∧
    (rec0 = (fn0.attrs.filter fun a => opts0.is_test_attr a) ++
      ((fn0.attrs.filter fun a => !opts0.is_test_attr a).filter fun a =>
        opts0.is_copied_attr a) ∧
     fn0Stripped.attrs = fn0.attrs.filter fun a => !opts0.is_test_attr a) := by
  have h : extract_test_attrs opts0 fn0 = (fn0Stripped, some rec0) := by
    rw [extract_test_attrs_eq]
    decide
  exact ⟨h, extract_test_attrs_record_correct opts0 fn0 fn0Stripped rec0 h⟩

/-- C4: a function declaration carrying no test-marker attribute is left
entirely unmodified by `extract_test_attrs`, and the extraction pass
treats it transparently: it reappears unchanged in the declaration list
and contributes neither a test record nor an error — uniformly in the
signature builder, which is therefore never consulted about it. -/
theorem non_test_fn_untouched {Sig : Type} (opts : MacroOpts)
    (try_build : ItemFn → Except Error Sig) (item : ItemFn)
    (rest : List Item) (baseline : Option Nat)
    (h : item.attrs.filter (fun a => opts.is_test_attr a) = []) :
    extract_test_attrs opts item = (item, none) ∧
    extractItemsLoop opts try_build (.fn item :: rest) baseline =
      (.fn item :: (extractItemsLoop opts try_build rest baseline).1,
       (extractItemsLoop opts try_build rest baseline).2.1,
       (extractItemsLoop opts try_build rest baseline).2.2) := by
  have hattrs : item.attrs.filter (fun a => !opts.is_test_attr a) = item.attrs := by
    rw [List.filter_eq_self]
    intro a ha
    have := List.filter_eq_nil_iff.mp h a ha
    simpa using this
  have hx : extract_test_attrs opts item = (item, none) := by
    rw [extract_test_attrs_eq, if_pos h, hattrs]
  exact ⟨hx, by simp only [extractItemsLoop, hx]⟩

/-- Witness for C4 at `fnPlain`. -/
theorem non_test_fn_untouched_witness :
    fnPlain.attrs.filter (fun a => opts0.is_test_attr a) = [] ∧
    (extract_test_attrs opts0 fnPlain = (fnPlain, none) ∧
     extractItemsLoop opts0 tb0 (.fn fnPlain :: []) none =
       (.fn fnPlain :: (extractItemsLoop opts0 tb0 [] none).1,
        (extractItemsLoop opts0 tb0 [] none).2.1,
        (extractItemsLoop opts0 tb0 [] none).2.2)) := by
  have h : fnPlain.attrs.filter (fun a => opts0.is_test_attr a) = [] := by decide
  exact ⟨h, non_test_fn_untouched opts0 tb0 fnPlain [] none h⟩

/-- C7: a test candidate whose signature build fails contributes exactly
its build error to the record and no test record; the pass continues with
the remaining declarations; and the function is left with its markers
already stripped (not restored). -/
theorem sig_build_failure_recorded {Sig : Type} (opts : MacroOpts)
    (try_build : ItemFn → Except Error Sig) (item item' : ItemFn)
    (rest : List Item) (baseline : Option Nat)
    (test_attrs : List Attribute) (e : Error)
    (h1 : extract_test_attrs opts item = (item', some test_attrs))
    (h2 : try_build item' = .error e) :
    extractItemsLoop opts try_build (.fn item :: rest) baseline =
      (.fn item' :: (extractItemsLoop opts try_build rest baseline).1,
       (extractItemsLoop opts try_build rest baseline).2.1,
       e :: (extractItemsLoop opts try_build rest baseline).2.2) ∧
    item'.attrs = item.attrs.filter fun a => !opts.is_test_attr a := by
  constructor
  · simp only [extractItemsLoop, h1, h2]
  · rw [extract_test_attrs_eq] at h1
    have h3 := congrArg Prod.fst h1
    simp only at h3
    rw [← h3]

/-- Witness for C7 at `fnBad` with the builder `tb0`. -/
theorem sig_build_failure_recorded_witness :
    extract_test_attrs opts0 fnBad = (fnBadStripped, some [attrTest]) ∧
    tb0 fnBadStripped = .error (Error.new_spanned "bad signature") ∧
    (extractItemsLoop opts0 tb0 (.fn fnBad :: []) none =
       (.fn fnBadStripped :: (extractItemsLoop opts0 tb0 [] none).1,
        (extractItemsLoop opts0 tb0 [] none).2.1,
        Error.new_spanned "bad signature" ::
          (extractItemsLoop opts0 tb0 [] none).2.2) ∧
     fnBadStripped.attrs = fnBad.attrs.filter fun a => !opts0.is_test_attr a) := by
  have h1 : extract_test_attrs opts0 fnBad = (fnBadStripped, some [attrTest]) := by
    rw [extract_test_attrs_eq]
    decide
  have h2 : tb0 fnBadStripped = .error (Error.new_spanned "bad signature") := rfl
  exact ⟨h1, h2, sig_build_failure_recorded opts0 tb0 fnBad fnBadStripped [] none
    [attrTest] (Error.new_spanned "bad signature") h1 h2⟩

/-- The declaration-list component of the pass is a pointwise map. -/
theorem extractItemsLoop_items {Sig : Type} (opts : MacroOpts)
    (try_build : ItemFn → Except Error Sig) :
    ∀ (items : List Item) (baseline : Option Nat),
      (extractItemsLoop opts try_build items baseline).1 =
        items.map (stripTestMarkers opts) := by
  intro items
  induction items with
  | nil => intro baseline; simp [extractItemsLoop]
  | cons item rest ih =>
    intro baseline
    match item with
    | .other tag =>
      simp only [extractItemsLoop, List.map_cons, stripTestMarkers]
      exact congrArg _ (ih baseline)
    | .fn f =>
      rcases hE : extract_test_attrs opts f with ⟨f', o⟩
      have hstrip : stripTestMarkers opts (.fn f) = .fn f' := by
        simp [stripTestMarkers, hE]
      cases o with
      | none =>
        simp only [extractItemsLoop, hE, List.map_cons, hstrip]
        exact congrArg _ (ih baseline)
      | some tas =>
        cases hB : try_build f' with
        | error e =>
          simp only [extractItemsLoop, hE, hB, List.map_cons, hstrip]
          exact congrArg _ (ih baseline)
        | ok s =>
          cases baseline with
          | none =>
            simp only [extractItemsLoop, hE, hB, List.map_cons, hstrip]
            exact congrArg _ (ih _)
          | some n =>
            simp only [extractItemsLoop, hE, hB, List.map_cons, hstrip]
            split
            · exact congrArg _ (ih _)
            · exact congrArg _ (ih _)

/-- C10: the extraction pass never inserts, removes, or reorders whole
declarations: the post-pass declaration list is the pointwise image of the
original one, where a function declaration keeps everything except that
its attribute list loses exactly the test markers, and any other
declaration is untouched. -/
theorem declaration_list_preserved {Sig : Type} (opts : MacroOpts)
    (try_build : ItemFn → Except Error Sig) (ast : ItemMod)
    (items : List Item) (h : ast.content = some items) :
    (Tests.try_extract opts try_build ast).2.content =
      some (items.map (stripTestMarkers opts)) ∧
    (items.map (stripTestMarkers opts)).length = items.length ∧
    (∀ f : ItemFn, stripTestMarkers opts (.fn f) =
      .fn { f with attrs := f.attrs.filter fun a => !opts.is_test_attr a }) ∧
    (∀ tag, stripTestMarkers opts (.other tag) = .other tag) := by
  refine ⟨?_, List.length_map _ _, ?_, fun tag => rfl⟩
  · simp only [Tests.try_extract, h, Tests.extract_recording_errors]
    rw [extractItemsLoop_items]
    split <;> rfl
  · intro f
    simp [stripTestMarkers, extract_test_attrs_eq]

/-- Witness for C10 at `modBad`. -/
theorem declaration_list_preserved_witness :
    modBad.content = some [Item.fn fnBad] ∧
    ((Tests.try_extract opts0 tb0 modBad).2.content =
       some ([Item.fn fnBad].map (stripTestMarkers opts0)) ∧
     ([Item.fn fnBad].map (stripTestMarkers opts0)).length =
       [Item.fn fnBad].length ∧
     (∀ f : ItemFn, stripTestMarkers opts0 (.fn f) =
       .fn { f with attrs := f.attrs.filter fun a => !opts0.is_test_attr a }) ∧
     (∀ tag, stripTestMarkers opts0 (.other tag) = .other tag)) :=
  ⟨rfl, declaration_list_preserved opts0 tb0 modBad [Item.fn fnBad] rfl⟩

/-- With an established baseline `n`, every record the pass accepts comes
from a function of arity `n` (observed through `withArity`). -/
theorem extractItemsLoop_arity_some {Sig : Type} (opts : MacroOpts)
    (try_build : ItemFn → Except Error Sig) (n : Nat) :
    ∀ (items : List Item),
      ∀ t ∈ (extractItemsLoop opts (withArity try_build) items (some n)).2.1,
        t.sig.2 = n := by
  intro items
  induction items with
  | nil => intro t ht; simp [extractItemsLoop] at ht
  | cons item rest ih =>
    intro t ht
    match item with
    | .other tag =>
      simp only [extractItemsLoop] at ht
      exact ih t ht
    | .fn f =>
      rcases hE : extract_test_attrs opts f with ⟨f', o⟩
      cases o with
      | none =>
        simp only [extractItemsLoop, hE] at ht
        exact ih t ht
      | some tas =>
        cases hB : try_build f' with
        | error e =>
          simp only [extractItemsLoop, hE, withArity, hB] at ht
          exact ih t ht
        | ok s =>
          simp only [extractItemsLoop, hE, withArity, hB] at ht
          split at ht
          · exact ih t ht
          · next hcond =>
            rcases List.mem_cons.mp ht with hteq | htm
            · rw [hteq]
              show generic_arity f'.sig.generics = n
              omega
            · exact ih t htm

/-- With no baseline yet, any two records the pass accepts have the same
source arity: the first accepted record fixes the baseline. -/
theorem extractItemsLoop_arity_none {Sig : Type} (opts : MacroOpts)
    (try_build : ItemFn → Except Error Sig) :
    ∀ (items : List Item),
      ∀ t ∈ (extractItemsLoop opts (withArity try_build) items none).2.1,
      ∀ u ∈ (extractItemsLoop opts (withArity try_build) items none).2.1,
        t.sig.2 = u.sig.2 := by
  intro items
  induction items with
  | nil => intro t ht; simp [extractItemsLoop] at ht
  | cons item rest ih =>
    intro t ht u hu
    match item with
    | .other tag =>
      simp only [extractItemsLoop] at ht hu
      exact ih t ht u hu
    | .fn f =>
      rcases hE : extract_test_attrs opts f with ⟨f', o⟩
      cases o with
      | none =>
        simp only [extractItemsLoop, hE] at ht hu
        exact ih t ht u hu
      | some tas =>
        cases hB : try_build f' with
        | error e =>
          simp only [extractItemsLoop, hE, withArity, hB] at ht hu
          exact ih t ht u hu
        | ok s =>
          simp only [extractItemsLoop, hE, withArity, hB] at ht hu
          rcases List.mem_cons.mp ht with hteq | htm <;>
            rcases List.mem_cons.mp hu with hueq | hum
          · rw [hteq, hueq]
          · rw [hteq, extractItemsLoop_arity_some opts try_build _ rest u hum]
            rfl
          · rw [hueq, extractItemsLoop_arity_some opts try_build _ rest t htm]
            rfl
          · rw [extractItemsLoop_arity_some opts try_build _ rest t htm,
              extractItemsLoop_arity_some opts try_build _ rest u hum]

/-- C2: all records in the returned test collection share one generic
arity (the source arity of each record is made observable through the
instrumenting builder `withArity`, so the first conjunct says any two
records agree); and a candidate whose arity differs from the established
baseline `n` is absent from the collection and contributes exactly one
error naming the offending function, its arity, and the baseline, with
the baseline left unchanged for the rest of the pass. -/
theorem arity_uniformity {Sig : Type} (opts : MacroOpts)
    (try_build : ItemFn → Except Error Sig) (items : List Item) :
    (∀ t ∈ (Tests.extract_recording_errors opts (withArity try_build)
        items).2.1.test_fns,
     ∀ u ∈ (Tests.extract_recording_errors opts (withArity try_build)
        items).2.1.test_fns, t.sig.2 = u.sig.2) ∧
    (∀ (tb : ItemFn → Except Error Sig) (f f' : ItemFn) (rest : List Item)
       (n : Nat) (tas : List Attribute) (s : Sig),
      extract_test_attrs opts f = (f', some tas) →
      tb f' = .ok s →
      generic_arity f'.sig.generics ≠ n →
      extractItemsLoop opts tb (.fn f :: rest) (some n) =
        (.fn f' :: (extractItemsLoop opts tb rest (some n)).1,
         (extractItemsLoop opts tb rest (some n)).2.1,
         arityMismatchError f'.sig.ident (generic_arity f'.sig.generics) n ::
           (extractItemsLoop opts tb rest (some n)).2.2)) := by
  constructor
  · intro t ht u hu
    exact extractItemsLoop_arity_none opts try_build items t ht u hu
  · intro tb f f' rest n tas s h1 h2 h3
    simp only [extractItemsLoop, h1, h2, if_pos h3]

/-- Witness for C2: `g<T, U>` against an established baseline of 1. -/
theorem arity_uniformity_witness :
    extract_test_attrs opts0 fn1 = (fn1Stripped, some [attrTest]) ∧
    tbOk fn1Stripped = .ok () ∧
    generic_arity fn1Stripped.sig.generics ≠ 1 ∧
    extractItemsLoop opts0 tbOk (.fn fn1 :: []) (some 1) =
      (.fn fn1Stripped :: (extractItemsLoop opts0 tbOk [] (some 1)).1,
       (extractItemsLoop opts0 tbOk [] (some 1)).2.1,
       arityMismatchError fn1Stripped.sig.ident
         (generic_arity fn1Stripped.sig.generics) 1 ::
         (extractItemsLoop opts0 tbOk [] (some 1)).2.2) := by
  have h1 : extract_test_attrs opts0 fn1 = (fn1Stripped, some [attrTest]) := by
    rw [extract_test_attrs_eq]
    decide
  have h2 : tbOk fn1Stripped = .ok () := rfl
  have h3 : generic_arity fn1Stripped.sig.generics ≠ 1 := by decide
  exact ⟨h1, h2, h3, (arity_uniformity opts0 tbOk []).2 tbOk fn1 fn1Stripped []
    1 [attrTest] () h1 h2 h3⟩

/-- C3 counterexample: on a non-inline module the failure's message is
"only inline modules are supported", not "only inline bodies are
supported" as the claim states. -/
theorem non_inline_error_message_cex :
    (Tests.try_extract opts0 tb0 modNoInline).1 =
      .error (Error.new_spanned "only inline modules are supported") ∧
    Error.new_spanned "only inline modules are supported" ≠
      Error.new_spanned "only inline bodies are supported" := by
  constructor
  · rfl
  · decide

/-- C3 (amended): for every module whose body is not inline,
`Tests.try_extract` fails immediately with the structural error
"only inline modules are supported", and no mutation occurs: the module
(with all attributes of itself and of its declarations) is returned
unchanged. -/
theorem non_inline_module_rejected {Sig : Type} (opts : MacroOpts)
    (try_build : ItemFn → Except Error Sig) (ast : ItemMod)
    (h : ast.content = none) :
    Tests.try_extract opts try_build ast =
      (.error (Error.new_spanned "only inline modules are supported"), ast) := by
  simp only [Tests.try_extract, h]

/-- Witness for C3 (amended) at `modNoInline`. -/
theorem non_inline_module_rejected_witness :
    modNoInline.content = none ∧
    Tests.try_extract opts0 tb0 modNoInline =
      (.error (Error.new_spanned "only inline modules are supported"),
       modNoInline) :=
  ⟨rfl, non_inline_module_rejected opts0 tb0 modNoInline rfl⟩

/-- Folding `Error.combine` over a list of errors concatenates all the
message lists in order. -/
theorem foldl_combine_eq (es : List Error) (e : Error) :
    es.foldl Error.combine e = ⟨e.msgs ++ (es.map Error.msgs).flatten⟩ := by
  induction es generalizing e with
  | nil => simp
  | cons x xs ih =>
    simp only [List.foldl_cons, List.map_cons, List.flatten_cons, ih,
      Error.combine, List.append_assoc]

/-- C8: for an inline module the extraction returns success — the test
collection plus the rewritten declaration list — exactly when no error was
recorded during the pass; otherwise it returns a single failure that is
the ordered merge of all recorded errors. -/
theorem try_extract_error_aggregation {Sig : Type} (opts : MacroOpts)
    (try_build : ItemFn → Except Error Sig) (ast : ItemMod)
    (items : List Item) (h : ast.content = some items) :
    ((Tests.extract_recording_errors opts try_build items).2.2
        = [] →
      Tests.try_extract opts try_build ast =
        (.ok ((Tests.extract_recording_errors opts try_build items).2.1,
              (Tests.extract_recording_errors opts try_build items).1),
         { ast with
            content :=
              some (Tests.extract_recording_errors opts
                try_build items).1 })) ∧
    (∀ (e : Error) (es : List Error),
      (Tests.extract_recording_errors opts try_build items).2.2
        = e :: es →
      Tests.try_extract opts try_build ast =
        (.error ⟨e.msgs ++ (es.map Error.msgs).flatten⟩,
         { ast with
            content :=
              some (Tests.extract_recording_errors opts
                try_build items).1 })) := by
  constructor
  · intro hnil
    simp only [Tests.try_extract, h, hnil, ErrorRecord.check]
  · intro e es hcons
    simp only [Tests.try_extract, h, hcons, ErrorRecord.check,
      foldl_combine_eq]

/-- Witness for C8 at `modBad`. -/
theorem try_extract_error_aggregation_witness :
    modBad.content = some [Item.fn fnBad] ∧
    (((Tests.extract_recording_errors opts0 tb0
        [Item.fn fnBad]).2.2 = [] →
      Tests.try_extract opts0 tb0 modBad =
        (.ok ((Tests.extract_recording_errors opts0 tb0 [Item.fn fnBad]).2.1,
              (Tests.extract_recording_errors opts0 tb0 [Item.fn fnBad]).1),
         { modBad with
            content :=
              some (Tests.extract_recording_errors opts0 tb0
                [Item.fn fnBad]).1 })) ∧
    (∀ (e : Error) (es : List Error),
      (Tests.extract_recording_errors opts0 tb0
        [Item.fn fnBad]).2.2 = e :: es →
      Tests.try_extract opts0 tb0 modBad =
        (.error ⟨e.msgs ++ (es.map Error.msgs).flatten⟩,
         { modBad with
            content :=
              some (Tests.extract_recording_errors opts0 tb0
                [Item.fn fnBad]).1 }))) :=
  ⟨rfl, try_extract_error_aggregation opts0 tb0 modBad [Item.fn fnBad] rfl⟩

/-- If no attribute from position `pos` on is named `instantiate_tests`,
the directive scan succeeds with no result and touches nothing. -/
theorem instExtractLoop_none (attrs : List Attribute) :
    ∀ (pos : Nat),
      (∀ (j : Nat) (hj : j < attrs.length), pos ≤ j →
        (attrs.get ⟨j, hj⟩).path ≠ "instantiate_tests") →
      instExtractLoop attrs pos = .ok (none, attrs) := by
  have main : ∀ (d pos : Nat), attrs.length - pos ≤ d →
      (∀ (j : Nat) (hj : j < attrs.length), pos ≤ j →
        (attrs.get ⟨j, hj⟩).path ≠ "instantiate_tests") →
      instExtractLoop attrs pos = .ok (none, attrs) := by
    intro d
    induction d with
    | zero =>
      intro pos hd _
      rw [instExtractLoop]
      have hnl : ¬ pos < attrs.length := by omega
      simp [hnl]
    | succ d ih =>
      intro pos hd hpre
      rw [instExtractLoop]
      by_cases h : pos < attrs.length
      · simp only [h, dite_true]
        rw [if_neg (hpre pos h (Nat.le_refl _))]
        exact ih (pos + 1) (by omega) (fun j hj hge => hpre j hj (by omega))
      · simp [h]
  intro pos hpre
  exact main (attrs.length - pos) pos (Nat.le_refl _) hpre

/-- The directive scan started at 0 reaches the first attribute named
`instantiate_tests` and acts according to its style and payload. -/
theorem instExtractLoop_found (attrs : List Attribute) (k : Nat)
    (hk : k < attrs.length)
    (hfirst : ∀ (j : Nat) (hj : j < attrs.length), j < k →
      (attrs.get ⟨j, hj⟩).path ≠ "instantiate_tests")
    (hpath : (attrs.get ⟨k, hk⟩).path = "instantiate_tests") :
    instExtractLoop attrs 0 =
      (match (attrs.get ⟨k, hk⟩).style with
       | .inner => .error (Error.new_spanned "cannot be an inner attribute")
       | .outer =>
         match (attrs.get ⟨k, hk⟩).parse_args with
         | .error e => .error e
         | .ok args => .ok (some args, attrs.eraseIdx k)) := by
  have main : ∀ (d pos : Nat), pos + d = k →
      instExtractLoop attrs pos =
        (match (attrs.get ⟨k, hk⟩).style with
         | .inner => .error (Error.new_spanned "cannot be an inner attribute")
         | .outer =>
           match (attrs.get ⟨k, hk⟩).parse_args with
           | .error e => .error e
           | .ok args => .ok (some args, attrs.eraseIdx k)) := by
    intro d
    induction d with
    | zero =>
      intro pos hpk
      have hpos : pos = k := by omega
      subst hpos
      rw [instExtractLoop]
      simp only [hk, dite_true]
      rw [if_pos hpath]
    | succ d ih =>
      intro pos hpk
      have hpos : pos < attrs.length := by omega
      rw [instExtractLoop]
      simp only [hpos, dite_true]
      rw [if_neg (hfirst pos hpos (by omega))]
      exact ih (pos + 1) (by omega)
  exact main k 0 (by omega)

/-- If the directive scan returns a parsed argument list, the resulting
attribute list arose by erasing one matching attribute. -/
theorem instExtractLoop_some (attrs : List Attribute) :
    ∀ (pos : Nat) (args : List GenericArgument) (attrs' : List Attribute),
      instExtractLoop attrs pos = .ok (some args, attrs') →
      ∃ (k : Nat) (hk : k < attrs.length),
        (attrs.get ⟨k, hk⟩).path = "instantiate_tests" ∧
        attrs' = attrs.eraseIdx k := by
  have main : ∀ (d pos : Nat), attrs.length - pos ≤ d →
      ∀ (args : List GenericArgument) (attrs' : List Attribute),
      instExtractLoop attrs pos = .ok (some args, attrs') →
      ∃ (k : Nat) (hk : k < attrs.length),
        (attrs.get ⟨k, hk⟩).path = "instantiate_tests" ∧
        attrs' = attrs.eraseIdx k := by
    intro d
    induction d with
    | zero =>
      intro pos hd args attrs' h
      rw [instExtractLoop] at h
      have hnl : ¬ pos < attrs.length := by omega
      simp [hnl] at h
    | succ d ih =>
      intro pos hd args attrs' h
      rw [instExtractLoop] at h
      by_cases hl : pos < attrs.length
      · simp only [hl, dite_true] at h
        by_cases hp : (attrs.get ⟨pos, hl⟩).path = "instantiate_tests"
        · rw [if_pos hp] at h
          cases hs : (attrs.get ⟨pos, hl⟩).style with
          | inner => rw [hs] at h; simp at h
          | outer =>
            rw [hs] at h
            cases hpa : (attrs.get ⟨pos, hl⟩).parse_args with
            | error e => rw [hpa] at h; simp at h
            | ok a =>
              rw [hpa] at h
              simp only [Except.ok.injEq, Prod.mk.injEq] at h
              exact ⟨pos, hl, hp, h.2.symm⟩
        · rw [if_neg hp] at h
          exact ih (pos + 1) (by omega) args attrs' h
      · simp [hl] at h
  intro pos args attrs' h
  exact main (attrs.length - pos) pos (Nat.le_refl _) args attrs' h

/-- C5: `InstArguments.try_extract` scans for the first attribute named
`instantiate_tests`.  With no match it succeeds with no argument list and
the module is untouched; when the first match is an outer attribute whose
payload parses, exactly that attribute is removed by position (everything
before it and everything after it — later same-named attributes included —
stays in place) and the parsed arguments are returned in payload order. -/
theorem inst_arguments_first_directive (m : ItemMod) :
    ((∀ a ∈ m.attrs, a.path ≠ "instantiate_tests") →
      InstArguments.try_extract m = (.ok none, m)) ∧
    (∀ (k : Nat) (hk : k < m.attrs.length) (args : List GenericArgument),
      (∀ (j : Nat) (hj : j < m.attrs.length), j < k →
        (m.attrs.get ⟨j, hj⟩).path ≠ "instantiate_tests") →
      (m.attrs.get ⟨k, hk⟩).path = "instantiate_tests" →
      (m.attrs.get ⟨k, hk⟩).style = .outer →
      (m.attrs.get ⟨k, hk⟩).parse_args = .ok args →
      InstArguments.try_extract m =
        (.ok (some ⟨args⟩),
         { m with attrs := m.attrs.take k ++ m.attrs.drop (k + 1) })) := by
  constructor
  · intro hno
    have h := instExtractLoop_none m.attrs 0
      (fun j hj _ => hno _ (List.get_mem m.attrs j hj))
    simp only [InstArguments.try_extract, h]
  · intro k hk args hfirst hpath hstyle hargs
    have h := instExtractLoop_found m.attrs k hk hfirst hpath
    rw [hstyle, hargs] at h
    simp only [InstArguments.try_extract, h,
      List.eraseIdx_eq_take_drop_succ]

/-- Witness for C5: a directive-free module, and a module whose first
directive (position 1) is outer with payload `<i32, u8>` and is followed
by a second directive that stays in place. -/
theorem inst_arguments_first_directive_witness :
    (∀ a ∈ modNoDir.attrs, a.path ≠ "instantiate_tests") ∧
    InstArguments.try_extract modNoDir = (.ok none, modNoDir) ∧
    ((modDir.attrs.get ⟨1, by decide⟩).path = "instantiate_tests" ∧
     (modDir.attrs.get ⟨1, by decide⟩).style = .outer ∧
     (modDir.attrs.get ⟨1, by decide⟩).parse_args =
       .ok [.typeArg "i32", .typeArg "u8"]) ∧
    InstArguments.try_extract modDir =
      (.ok (some ⟨[.typeArg "i32", .typeArg "u8"]⟩),
       { modDir with attrs := modDir.attrs.take 1 ++ modDir.attrs.drop 2 }) := by
  have hno : ∀ a ∈ modNoDir.attrs, a.path ≠ "instantiate_tests" := by decide
  have hfirst : ∀ (j : Nat) (hj : j < modDir.attrs.length), j < 1 →
      (modDir.attrs.get ⟨j, hj⟩).path ≠ "instantiate_tests" := by
    intro j hj hjk
    have hj0 : j = 0 := by omega
    subst hj0
    show attrPlain.path ≠ "instantiate_tests"
    decide
  refine ⟨hno, (inst_arguments_first_directive modNoDir).1 hno, ⟨rfl, rfl, rfl⟩, ?_⟩
  exact (inst_arguments_first_directive modDir).2 1 (by decide)
    [.typeArg "i32", .typeArg "u8"] hfirst rfl rfl rfl

/-- C6: when the first attribute named `instantiate_tests` has inner
style, `InstArguments.try_extract` fails with "cannot be an inner
attribute" and the module's attribute list is left unchanged. -/
theorem inst_arguments_inner_rejected (m : ItemMod) (k : Nat)
    (hk : k < m.attrs.length)
    (hfirst : ∀ (j : Nat) (hj : j < m.attrs.length), j < k →
      (m.attrs.get ⟨j, hj⟩).path ≠ "instantiate_tests")
    (hpath : (m.attrs.get ⟨k, hk⟩).path = "instantiate_tests")
    (hstyle : (m.attrs.get ⟨k, hk⟩).style = .inner) :
    InstArguments.try_extract m =
      (.error (Error.new_spanned "cannot be an inner attribute"), m) := by
  have h := instExtractLoop_found m.attrs k hk hfirst hpath
  rw [hstyle] at h
  simp only [InstArguments.try_extract, h]

/-- Witness for C6 at `modDirInner`. -/
theorem inst_arguments_inner_rejected_witness :
    (modDirInner.attrs.get ⟨0, by decide⟩).path = "instantiate_tests" ∧
    (modDirInner.attrs.get ⟨0, by decide⟩).style = .inner ∧
    InstArguments.try_extract modDirInner =
      (.error (Error.new_spanned "cannot be an inner attribute"),
       modDirInner) := by
  refine ⟨rfl, rfl, ?_⟩
  exact inst_arguments_inner_rejected modDirInner 0 (by decide)
    (fun j hj hjk => absurd hjk (by omega)) rfl rfl

/-- C9: after a successful extraction removed the module's only directive
attribute, a second run finds no directive: it succeeds with no argument
list and leaves the module unchanged. -/
theorem inst_arguments_idempotent (m m' : ItemMod) (args : InstArguments)
    (h1 : InstArguments.try_extract m = (.ok (some args), m'))
    (h2 : m.attrs.countP (fun a => a.path == "instantiate_tests") = 1) :
    InstArguments.try_extract m' = (.ok none, m') := by
  rcases hL : instExtractLoop m.attrs 0 with e | ⟨o, attrs'⟩
  · simp only [InstArguments.try_extract, hL] at h1
    simp at h1
  · cases o with
    | none =>
      simp only [InstArguments.try_extract, hL] at h1
      simp at h1
    | some a =>
      simp only [InstArguments.try_extract, hL, Prod.mk.injEq] at h1
      obtain ⟨_, hm'⟩ := h1
      obtain ⟨k, hk, hkpath, hattrs'⟩ := instExtractLoop_some m.attrs 0 a attrs' hL
      have hsplit : m.attrs =
          m.attrs.take k ++ m.attrs.get ⟨k, hk⟩ :: m.attrs.drop (k + 1) := by
        conv_lhs => rw [← List.take_append_drop k m.attrs,
          List.drop_eq_getElem_cons hk]
        rfl
      have hcount : (m.attrs.take k ++
          m.attrs.get ⟨k, hk⟩ :: m.attrs.drop (k + 1)).countP
            (fun a => a.path == "instantiate_tests") = 1 := by
        rw [← hsplit]
        exact h2
      rw [List.countP_append, List.countP_cons, if_pos (by simpa using hkpath)]
        at hcount
      have hzero : attrs'.countP (fun a => a.path == "instantiate_tests") = 0 := by
        rw [hattrs', List.eraseIdx_eq_take_drop_succ, List.countP_append]
        omega
      have hnone : ∀ a ∈ attrs', a.path ≠ "instantiate_tests" := by
        intro a ha
        have := List.countP_eq_zero.mp hzero a ha
        simpa using this
      subst hm'
      have hloop := instExtractLoop_none attrs' 0
        (fun j hj _ => hnone _ (List.get_mem attrs' j hj))
      simp only [InstArguments.try_extract, hloop]

/-- Witness for C9 at `modDirOnce`. -/
theorem inst_arguments_idempotent_witness :
    InstArguments.try_extract modDirOnce =
      (.ok (some ⟨[.typeArg "i32", .typeArg "u8"]⟩), modDirOnceStripped) ∧
    modDirOnce.attrs.countP (fun a => a.path == "instantiate_tests") = 1 ∧
    InstArguments.try_extract modDirOnceStripped =
      (.ok none, modDirOnceStripped) := by
  have hfirst : ∀ (j : Nat) (hj : j < modDirOnce.attrs.length), j < 1 →
      (modDirOnce.attrs.get ⟨j, hj⟩).path ≠ "instantiate_tests" := by
    intro j hj hjk
    have hj0 : j = 0 := by omega
    subst hj0
    show attrPlain.path ≠ "instantiate_tests"
    decide
  have hL : instExtractLoop modDirOnce.attrs 0 =
      .ok (some [.typeArg "i32", .typeArg "u8"], [attrPlain]) := by
    rw [instExtractLoop_found modDirOnce.attrs 1 (by decide) hfirst rfl]
    rfl
  have h1 : InstArguments.try_extract modDirOnce =
      (.ok (some ⟨[.typeArg "i32", .typeArg "u8"]⟩), modDirOnceStripped) := by
    simp only [InstArguments.try_extract, hL]
    rfl
  have h2 : modDirOnce.attrs.countP (fun a => a.path == "instantiate_tests")
      = 1 := by decide
  exact ⟨h1, h2, inst_arguments_idempotent modDirOnce modDirOnceStripped
    ⟨[.typeArg "i32", .typeArg "u8"]⟩ h1 h2⟩

end GenericTests
